import Mathlib

/-!
# Motion: the closed-form spring solver `SolveSpring`

A shallow embedding of `Sources/MotionC/Spring.c` and of the types declared in
`Sources/MotionC/include/Spring.h`.

* `double` is a type parameter `α` carrying the arithmetic the source uses
  (`+ - * /`, unary minus, `<`, the literals `1.0` and `2.0`).  The functions
  `sqrt`, `sin`, `cos` of the C math library are passed as a record `Libm α`.
* Read at `α = ℝ` with `Real.sqrt`, `Real.sin`, `Real.cos` this gives the exact
  (idealised) meaning of the arithmetic; read at `α = Dbl` it gives the IEEE-754
  treatment of signed zeros, infinities and NaN.
* `simd_double4` is a record of four lanes with the lane-wise operators of the
  vector extension (a scalar operand is broadcast to all four lanes).
* The in/out pointer `velocity` is modelled by state passing: the solver takes
  the velocity before the call and returns the velocity after it.
* The local `simd_double4 x;` is declared without an initialiser.  Its
  indeterminate initial content is the explicit argument `x`.
-/

namespace Motion

/-! ## Data model (`Spring.h`) -/

/-- Four lanes of `double`: the vector type `simd_double4`. -/
structure simd_double4 (α : Type) where
  x : α
  y : α
  z : α
  w : α

/-- Spring parameters: `struct SpringC`. -/
structure SpringC (α : Type) where
  stiffness : α
  damping : α

/-- The three math-library functions `SolveSpring` calls. -/
structure Libm (α : Type) where
  sqrt : α → α
  sin : α → α
  cos : α → α

namespace simd_double4

variable {α : Type}

/-- Lane `i` of a vector (`v[i]`). -/
def lane (v : simd_double4 α) : Fin 4 → α
  | 0 => v.x
  | 1 => v.y
  | 2 => v.z
  | 3 => v.w

/-- Vector with the same scalar in every lane. -/
def splat (a : α) : simd_double4 α := ⟨a, a, a, a⟩

/-- Lane-wise `vector + vector`. -/
instance [Add α] : Add (simd_double4 α) :=
  ⟨fun a b => ⟨a.x + b.x, a.y + b.y, a.z + b.z, a.w + b.w⟩⟩

/-- Lane-wise `vector - vector`. -/
instance [Sub α] : Sub (simd_double4 α) :=
  ⟨fun a b => ⟨a.x - b.x, a.y - b.y, a.z - b.z, a.w - b.w⟩⟩

/-- Lane-wise unary minus. -/
instance [Neg α] : Neg (simd_double4 α) :=
  ⟨fun a => ⟨-a.x, -a.y, -a.z, -a.w⟩⟩

/-- The product `vector * scalar`: the scalar is broadcast. -/
instance [Mul α] : HMul (simd_double4 α) α (simd_double4 α) :=
  ⟨fun a s => ⟨a.x * s, a.y * s, a.z * s, a.w * s⟩⟩

/-- The product `scalar * vector`: the scalar is broadcast. -/
instance [Mul α] : HMul α (simd_double4 α) (simd_double4 α) :=
  ⟨fun s a => ⟨s * a.x, s * a.y, s * a.z, s * a.w⟩⟩

/-- The quotient `vector / scalar`: the scalar is broadcast. -/
instance [Div α] : HDiv (simd_double4 α) α (simd_double4 α) :=
  ⟨fun a s => ⟨a.x / s, a.y / s, a.z / s, a.w / s⟩⟩

end simd_double4

/-! ## The solver (`Spring.c`) -/

section Solver

variable {α : Type} [Add α] [Sub α] [Mul α] [Div α] [Neg α] [LT α]
  [DecidableRel (fun a b : α => a < b)] [OfNat α 1] [OfNat α 2]

/-- `SolveSpring(spring, dt, x0, velocity)` of `Spring.c`, lines 10-36.
The result is the pair (returned vector, `*velocity` after the call).
The argument `x` is the indeterminate content of the uninitialised local `x`
of line 18, which line 35 returns when the branch of line 19 is not taken. -/
def SolveSpring (m : Libm α) (spring : SpringC α) (dt : α)
    (x0 velocity x : simd_double4 α) : simd_double4 α × simd_double4 α :=
  let stiffness := spring.stiffness
  let damping := spring.damping
  let w0 := m.sqrt stiffness
  let dampingRatio := damping / (2 * w0)
  let wD := w0 * m.sqrt (1 - dampingRatio * dampingRatio)
  if dampingRatio < 1 then
    let decayEnvelope := (-dampingRatio) * w0 * dt
    let sin_wD_dt := m.sin (wD * dt)
    let cos_wD_dt := m.cos (wD * dt)
    let velocity_x0_dampingRatio_w0 : simd_double4 α := (velocity + x0) * (dampingRatio * w0)
    let A := x0
    let B : simd_double4 α := velocity_x0_dampingRatio_w0 / wD
    let x : simd_double4 α := decayEnvelope * (A * cos_wD_dt + B * sin_wD_dt)
    let d_x : simd_double4 α := velocity_x0_dampingRatio_w0 * cos_wD_dt - x0 * (wD * sin_wD_dt)
    (x, -(dampingRatio * w0 * x - decayEnvelope * d_x))
  else
    (x, velocity)

/-- Scalar-equivalent solver: the formulas of `SolveSpring` applied to one
`double` per argument instead of four lanes (spec section 8, "solving each lane
individually with a scalar-equivalent call"). -/
def SolveSpringScalar (m : Libm α) (spring : SpringC α) (dt : α)
    (x0 velocity x : α) : α × α :=
  let stiffness := spring.stiffness
  let damping := spring.damping
  let w0 := m.sqrt stiffness
  let dampingRatio := damping / (2 * w0)
  let wD := w0 * m.sqrt (1 - dampingRatio * dampingRatio)
  if dampingRatio < 1 then
    let decayEnvelope := (-dampingRatio) * w0 * dt
    let sin_wD_dt := m.sin (wD * dt)
    let cos_wD_dt := m.cos (wD * dt)
    let velocity_x0_dampingRatio_w0 := (velocity + x0) * (dampingRatio * w0)
    let A := x0
    let B := velocity_x0_dampingRatio_w0 / wD
    let x := decayEnvelope * (A * cos_wD_dt + B * sin_wD_dt)
    let d_x := velocity_x0_dampingRatio_w0 * cos_wD_dt - x0 * (wD * sin_wD_dt)
    (x, -(dampingRatio * w0 * x - decayEnvelope * d_x))
  else
    (x, velocity)

/-! ### The locals of `SolveSpring`, one by one

The same expressions as in `SolveSpring`, named, so that a statement can speak of
the value a local holds. -/

/-- The local `w0` of line 14. -/
def SolveSpring.w0 (m : Libm α) (spring : SpringC α) : α :=
  m.sqrt spring.stiffness

/-- The local `dampingRatio` of line 15. -/
def SolveSpring.dampingRatio (m : Libm α) (spring : SpringC α) : α :=
  spring.damping / (2 * SolveSpring.w0 m spring)

/-- The local `wD` of line 16. -/
def SolveSpring.wD (m : Libm α) (spring : SpringC α) : α :=
  SolveSpring.w0 m spring
    * m.sqrt (1 - SolveSpring.dampingRatio m spring * SolveSpring.dampingRatio m spring)

/-- The local `decayEnvelope` of line 20. -/
def SolveSpring.decayEnvelope (m : Libm α) (spring : SpringC α) (dt : α) : α :=
  (-SolveSpring.dampingRatio m spring) * SolveSpring.w0 m spring * dt

/-- The local `B` of line 27, with `velocity_x0_dampingRatio_w0` of line 24 written out. -/
def SolveSpring.B (m : Libm α) (spring : SpringC α) (x0 velocity : simd_double4 α) :
    simd_double4 α :=
  ((velocity + x0) * (SolveSpring.dampingRatio m spring * SolveSpring.w0 m spring))
    / SolveSpring.wD m spring

/-- The body of the branch of line 19, lines 20-32: the pair (the vector assigned
to `x`, the vector stored to `*velocity`). -/
def SolveSpring.underDamped (m : Libm α) (spring : SpringC α) (dt : α)
    (x0 velocity : simd_double4 α) : simd_double4 α × simd_double4 α :=
  let dampingRatio := SolveSpring.dampingRatio m spring
  let w0 := SolveSpring.w0 m spring
  let wD := SolveSpring.wD m spring
  let decayEnvelope := SolveSpring.decayEnvelope m spring dt
  let sin_wD_dt := m.sin (wD * dt)
  let cos_wD_dt := m.cos (wD * dt)
  let velocity_x0_dampingRatio_w0 : simd_double4 α := (velocity + x0) * (dampingRatio * w0)
  let A := x0
  let B : simd_double4 α := SolveSpring.B m spring x0 velocity
  let x : simd_double4 α := decayEnvelope * (A * cos_wD_dt + B * sin_wD_dt)
  let d_x : simd_double4 α := velocity_x0_dampingRatio_w0 * cos_wD_dt - x0 * (wD * sin_wD_dt)
  (x, -(dampingRatio * w0 * x - decayEnvelope * d_x))

end Solver

/-! ## Reading `double` as a real number -/

/-- The math library read over the reals.  `Real.sqrt` is `0` on a negative
argument and real division by `0` is `0`, where C yields NaN or an infinity; the
statements over the reals therefore carry the hypotheses (`stiffness > 0`,
`damping ≥ 0`, `ζ < 1`) or concrete inputs that keep every square root and every
divisor inside its domain. -/
noncomputable def realLibm : Libm ℝ := ⟨Real.sqrt, Real.sin, Real.cos⟩

/-- The displacement of spec section 4.1, step 4, for one lane, written from the
spec's words: `x(dt) = E(dt) · (A·cos(wD·dt) + B·sin(wD·dt))` with
`E(t) = exp(−ζ·w0·t)`, `A = x0`, `B = (velocity + x0·ζ·w0) / wD`,
`w0 = sqrt(stiffness)`, `ζ = damping / (2·w0)`, `wD = w0 · sqrt(1 − ζ²)`. -/
noncomputable def specDisplacement (stiffness damping dt x0 velocity : ℝ) : ℝ :=
  let w0 := Real.sqrt stiffness
  let ζ := damping / (2 * w0)
  let wD := w0 * Real.sqrt (1 - ζ ^ 2)
  let A := x0
  let B := (velocity + x0 * ζ * w0) / wD
  Real.exp (-ζ * w0 * dt) * (A * Real.cos (wD * dt) + B * Real.sin (wD * dt))

/-! ## Reading `double` as an IEEE-754 value

Only the behaviour of the special values is modelled: signed zeros, infinities
and NaN follow IEEE-754 and Annex F of the C standard.  A finite result is kept
exact (no rounding, no overflow to infinity), and the math library's value at a
finite non-zero argument is left to the caller of `ieeeLibm`. -/

/-- A `double`: NaN, an infinity with its sign bit, or a finite value given by
its sign bit and its magnitude, so that `+0` and `-0` are distinct. -/
inductive Dbl where
  | nan : Dbl
  | inf (neg : Bool) : Dbl
  | fin (neg : Bool) (mag : NNRat) : Dbl

namespace Dbl

/-- The rational value of the finite double with sign bit `neg` and magnitude `mag`. -/
def toRat (neg : Bool) (mag : NNRat) : ℚ := if neg then -(mag : ℚ) else (mag : ℚ)

/-- The finite double of a rational; sign bit set exactly for a negative value. -/
def ofRat (q : ℚ) : Dbl := fin (decide (q < 0)) (Rat.nnabs q)

/-- Unary minus flips the sign bit. -/
def neg : Dbl → Dbl
  | nan => nan
  | inf s => inf (!s)
  | fin s a => fin (!s) a

/-- Addition: `∞ + (−∞)` is NaN; an exact zero sum is `+0` unless both operands
carry the sign bit. -/
def add : Dbl → Dbl → Dbl
  | nan, _ => nan
  | _, nan => nan
  | inf s, inf t => if s = t then inf s else nan
  | inf s, fin _ _ => inf s
  | fin _ _, inf t => inf t
  | fin s a, fin t b =>
      if toRat s a + toRat t b = 0 then fin (s && t) 0 else ofRat (toRat s a + toRat t b)

/-- Multiplication: the sign is the exclusive or of the signs; `∞ · 0` is NaN. -/
def mul : Dbl → Dbl → Dbl
  | nan, _ => nan
  | _, nan => nan
  | inf s, inf t => inf (xor s t)
  | inf s, fin t b => if b = 0 then nan else inf (xor s t)
  | fin s a, inf t => if a = 0 then nan else inf (xor s t)
  | fin s a, fin t b => fin (xor s t) (a * b)

/-- Division: `0 / 0` and `∞ / ∞` are NaN; a non-zero value over a zero is an
infinity whose sign is the exclusive or of the signs. -/
def div : Dbl → Dbl → Dbl
  | nan, _ => nan
  | _, nan => nan
  | inf _, inf _ => nan
  | inf s, fin t _ => inf (xor s t)
  | fin s _, inf t => fin (xor s t) 0
  | fin s a, fin t b =>
      if b = 0 then (if a = 0 then nan else inf (xor s t)) else fin (xor s t) (a / b)

/-- The comparison `a < b`: false as soon as one operand is NaN. -/
def lt : Dbl → Dbl → Bool
  | nan, _ => false
  | _, nan => false
  | inf s, inf t => s && !t
  | inf s, fin _ _ => s
  | fin _ _, inf t => !t
  | fin s a, fin t b => decide (toRat s a < toRat t b)

/-- The comparison `a <= b`: false as soon as one operand is NaN. -/
def le : Dbl → Dbl → Bool
  | nan, _ => false
  | _, nan => false
  | inf s, inf t => s || !t
  | inf s, fin _ _ => s
  | fin _ _, inf t => !t
  | fin s a, fin t b => decide (toRat s a ≤ toRat t b)

/-- The test `isfinite`: neither NaN nor an infinity. -/
def isFinite : Dbl → Bool
  | fin _ _ => true
  | _ => false

instance : Add Dbl := ⟨add⟩

instance : Sub Dbl := ⟨fun a b => add a (neg b)⟩

instance : Mul Dbl := ⟨mul⟩

instance : Div Dbl := ⟨div⟩

instance : Neg Dbl := ⟨neg⟩

instance : LT Dbl := ⟨fun a b => lt a b = true⟩

instance : LE Dbl := ⟨fun a b => le a b = true⟩

instance : DecidableRel (fun a b : Dbl => a < b) :=
  fun a b => inferInstanceAs (Decidable (lt a b = true))

instance : DecidableRel (fun a b : Dbl => a ≤ b) :=
  fun a b => inferInstanceAs (Decidable (le a b = true))

/-- The literal `0.0`, that is `+0`. -/
instance : OfNat Dbl 0 := ⟨fin false 0⟩

/-- The literal `1.0`. -/
instance : OfNat Dbl 1 := ⟨fin false 1⟩

/-- The literal `2.0`. -/
instance : OfNat Dbl 2 := ⟨fin false 2⟩

end Dbl

/-- The math library on `Dbl`.  The special cases are those of Annex F:
`sqrt(±0) = ±0`, `sqrt(+∞) = +∞`, `sqrt` of a negative value is NaN,
`sin(±0) = ±0`, `cos(±0) = 1`, `sin(±∞)` and `cos(±∞)` are NaN, NaN gives NaN.
At a finite non-zero argument the result is the one the given approximations
`sqrtF`, `sinF`, `cosF` compute. -/
def ieeeLibm (sqrtF : NNRat → NNRat) (sinF cosF : ℚ → ℚ) : Libm Dbl where
  sqrt
    | Dbl.nan => Dbl.nan
    | Dbl.inf s => if s then Dbl.nan else Dbl.inf false
    | Dbl.fin s a =>
        if a = 0 then Dbl.fin s 0 else if s then Dbl.nan else Dbl.fin false (sqrtF a)
  sin
    | Dbl.fin s a => if a = 0 then Dbl.fin s 0 else Dbl.ofRat (sinF (Dbl.toRat s a))
    | _ => Dbl.nan
  cos
    | Dbl.fin s a => if a = 0 then Dbl.fin false 1 else Dbl.ofRat (cosF (Dbl.toRat s a))
    | _ => Dbl.nan

/-! ## General facts about the solver -/

open simd_double4

section Generic

variable {α : Type} [Add α] [Sub α] [Mul α] [Div α] [Neg α] [LT α]
  [DecidableRel (fun a b : α => a < b)] [OfNat α 1] [OfNat α 2]

/-- When the test of line 19 fails the call returns the local `x` as it was
and does not write to `*velocity`. -/
theorem solve_skip (m : Libm α) (spring : SpringC α) (dt : α)
    (x0 velocity x : simd_double4 α)
    (h : ¬ spring.damping / (2 * m.sqrt spring.stiffness) < 1) :
    SolveSpring m spring dt x0 velocity x = (x, velocity) := by
  simp only [SolveSpring, if_neg h]

/-- Each lane of the vector solver is the scalar solver on that lane. -/
theorem solve_lane_eq_scalar (m : Libm α) (spring : SpringC α) (dt : α)
    (x0 velocity x : simd_double4 α) (i : Fin 4) :
    ((SolveSpring m spring dt x0 velocity x).1.lane i,
      (SolveSpring m spring dt x0 velocity x).2.lane i)
      = SolveSpringScalar m spring dt (x0.lane i) (velocity.lane i) (x.lane i) := by
  unfold SolveSpring SolveSpringScalar
  by_cases h : spring.damping / (2 * m.sqrt spring.stiffness) < 1
  · simp only [if_pos h]
    fin_cases i <;> rfl
  · simp only [if_neg h]

/-- In the under-damped branch the scalar solver does not read its local `x`. -/
theorem scalar_ignores_local (m : Libm α) (spring : SpringC α) (dt x0 velocity x y : α)
    (h : spring.damping / (2 * m.sqrt spring.stiffness) < 1) :
    SolveSpringScalar m spring dt x0 velocity x = SolveSpringScalar m spring dt x0 velocity y := by
  simp only [SolveSpringScalar, if_pos h]

end Generic

/-- Every lane of a broadcast scalar is that scalar. -/
theorem lane_splat {α : Type} (a : α) (i : Fin 4) : (splat a).lane i = a := by
  fin_cases i <;> rfl

/-! ## The scenario `stiffness = 100`, `damping = 10` over the reals -/

theorem sqrt_hundred : Real.sqrt 100 = 10 := by
  rw [show (100:ℝ) = 10 ^ 2 by norm_num]
  exact Real.sqrt_sq (by norm_num)

theorem scenario_zeta : (10:ℝ) / (2 * Real.sqrt 100) = 1 / 2 := by
  rw [sqrt_hundred]; norm_num

theorem scenario_zeta_lt_one : (10:ℝ) / (2 * Real.sqrt 100) < 1 := by
  rw [scenario_zeta]; norm_num

/-- The damped frequency `wD = 10·sqrt(3/4)` of the scenario is positive. -/
theorem wD_pos : 0 < 10 * Real.sqrt (3 / 4) := by
  have h : (0:ℝ) < 3 / 4 := by norm_num
  have := Real.sqrt_pos.mpr h
  positivity

theorem wD_le : 10 * Real.sqrt (3 / 4) ≤ 10 := by
  have : Real.sqrt (3 / 4) ≤ 1 := by
    calc Real.sqrt (3 / 4) ≤ Real.sqrt 1 := Real.sqrt_le_sqrt (by norm_num)
      _ = 1 := Real.sqrt_one
  linarith

/-- The scalar solver on the scenario, with the constants evaluated:
the factor in front of the oscillation is `−5·dt`. -/
theorem scenario_scalar (dt x0 v x : ℝ) :
    SolveSpringScalar realLibm ⟨100, 10⟩ dt x0 v x
      = (-(5 * dt) * (x0 * Real.cos (10 * Real.sqrt (3 / 4) * dt)
            + (v + x0) * 5 / (10 * Real.sqrt (3 / 4)) * Real.sin (10 * Real.sqrt (3 / 4) * dt)),
         -(5 * (-(5 * dt) * (x0 * Real.cos (10 * Real.sqrt (3 / 4) * dt)
            + (v + x0) * 5 / (10 * Real.sqrt (3 / 4)) * Real.sin (10 * Real.sqrt (3 / 4) * dt)))
           - -(5 * dt) * ((v + x0) * 5 * Real.cos (10 * Real.sqrt (3 / 4) * dt)
              - x0 * (10 * Real.sqrt (3 / 4) * Real.sin (10 * Real.sqrt (3 / 4) * dt))))) := by
  have h := scenario_zeta_lt_one
  have e0 : (10:ℝ) / (2 * 10) = 1 / 2 := by norm_num
  have e1 : (1:ℝ) - 1 / 2 * (1 / 2) = 3 / 4 := by norm_num
  simp only [SolveSpringScalar, realLibm, if_pos h]
  simp only [sqrt_hundred, e0, e1]
  congr 1 <;> ring

theorem scenario_fst (dt : ℝ) (x0 v x : simd_double4 ℝ) (i : Fin 4) :
    (SolveSpring realLibm ⟨100, 10⟩ dt x0 v x).1.lane i
      = -(5 * dt) * (x0.lane i * Real.cos (10 * Real.sqrt (3 / 4) * dt)
            + (v.lane i + x0.lane i) * 5 / (10 * Real.sqrt (3 / 4))
                * Real.sin (10 * Real.sqrt (3 / 4) * dt)) := by
  have h := congrArg Prod.fst (solve_lane_eq_scalar realLibm ⟨100, 10⟩ dt x0 v x i)
  rw [scenario_scalar] at h
  exact h

theorem scenario_snd (dt : ℝ) (x0 v x : simd_double4 ℝ) (i : Fin 4) :
    (SolveSpring realLibm ⟨100, 10⟩ dt x0 v x).2.lane i
      = -(5 * (-(5 * dt) * (x0.lane i * Real.cos (10 * Real.sqrt (3 / 4) * dt)
            + (v.lane i + x0.lane i) * 5 / (10 * Real.sqrt (3 / 4))
                * Real.sin (10 * Real.sqrt (3 / 4) * dt)))
           - -(5 * dt) * ((v.lane i + x0.lane i) * 5 * Real.cos (10 * Real.sqrt (3 / 4) * dt)
              - x0.lane i * (10 * Real.sqrt (3 / 4) * Real.sin (10 * Real.sqrt (3 / 4) * dt)))) := by
  have h := congrArg Prod.snd (solve_lane_eq_scalar realLibm ⟨100, 10⟩ dt x0 v x i)
  rw [scenario_scalar] at h
  exact h

/-- The displacement of the scenario from `x0 = 1`, `velocity = 0`, as a function
of the time step. -/
theorem scenario_fst_fun (x : simd_double4 ℝ) (i : Fin 4) :
    (fun t : ℝ => (SolveSpring realLibm ⟨100, 10⟩ t (splat 1) (splat 0) x).1.lane i)
      = fun t => -(5 * t) * (Real.cos (10 * Real.sqrt (3 / 4) * t)
          + 5 / (10 * Real.sqrt (3 / 4)) * Real.sin (10 * Real.sqrt (3 / 4) * t)) := by
  funext t
  rw [scenario_fst, lane_splat, lane_splat]
  ring

/-- At `dt = 1/10` the phase `wD·dt` lies in `(0, 1]`, where sine and cosine are positive. -/
theorem scenario_trig_pos : 0 < Real.cos (10 * Real.sqrt (3 / 4) * (1 / 10))
    ∧ 0 < Real.sin (10 * Real.sqrt (3 / 4) * (1 / 10)) := by
  have h0 : 0 < 10 * Real.sqrt (3 / 4) * (1 / 10) := by
    have := wD_pos; positivity
  have h1 : 10 * Real.sqrt (3 / 4) * (1 / 10) ≤ 1 := by
    have := wD_le; linarith
  have hpi := Real.pi_gt_three
  constructor
  · apply Real.cos_pos_of_mem_Ioo
    constructor <;> linarith
  · apply Real.sin_pos_of_pos_of_lt_pi h0
    linarith

/-- Derivative of `t ↦ −5t · (cos(W t) + (5/W) sin(W t))`. -/
theorem hasDerivAt_linear_envelope (W : ℝ) (t : ℝ) :
    HasDerivAt (fun t : ℝ => -(5 * t) * (Real.cos (W * t) + 5 / W * Real.sin (W * t)))
      (-5 * (Real.cos (W * t) + 5 / W * Real.sin (W * t))
        + -(5 * t) * (-(W * Real.sin (W * t)) + 5 / W * (W * Real.cos (W * t)))) t := by
  have hl : HasDerivAt (fun t : ℝ => W * t) W t := by
    simpa using (hasDerivAt_id t).const_mul W
  have hc : HasDerivAt (fun t : ℝ => Real.cos (W * t)) (-(W * Real.sin (W * t))) t := by
    have := hl.cos
    convert this using 1; ring
  have hs : HasDerivAt (fun t : ℝ => Real.sin (W * t)) (W * Real.cos (W * t)) t := by
    have := hl.sin
    convert this using 1; ring
  have hlin : HasDerivAt (fun t : ℝ => -(5 * t)) (-5) t := by
    have := ((hasDerivAt_id t).const_mul (5:ℝ)).neg
    simpa using this
  exact hlin.mul (hc.add (hs.const_mul (5 / W)))

/-- Second derivative at `0` of `t ↦ −5t · (cos(W t) + (5/W) sin(W t))`. -/
theorem hasDerivAt_linear_envelope_deriv (W : ℝ) (hW : W ≠ 0) :
    HasDerivAt (fun t : ℝ => -5 * (Real.cos (W * t) + 5 / W * Real.sin (W * t))
        + -(5 * t) * (-(W * Real.sin (W * t)) + 5 / W * (W * Real.cos (W * t)))) (-50) 0 := by
  have hl : HasDerivAt (fun t : ℝ => W * t) W 0 := by
    simpa using (hasDerivAt_id (0:ℝ)).const_mul W
  have hc : HasDerivAt (fun t : ℝ => Real.cos (W * t)) (-(W * Real.sin (W * 0))) 0 := by
    have := hl.cos
    convert this using 1; ring
  have hs : HasDerivAt (fun t : ℝ => Real.sin (W * t)) (W * Real.cos (W * 0)) 0 := by
    have := hl.sin
    convert this using 1; ring
  have hlin : HasDerivAt (fun t : ℝ => -(5 * t)) (-5) 0 := by
    have := ((hasDerivAt_id (0:ℝ)).const_mul (5:ℝ)).neg
    simpa using this
  have := ((hc.add (hs.const_mul (5 / W))).const_mul (-5)).add
    (hlin.mul ((hs.const_mul W).neg.add ((hc.const_mul W).const_mul (5 / W))))
  convert this using 1
  simp
  field_simp
  ring

/-! ## The claims about the under-damped branch -/

/-- Claim C1, evaluated at the claim's own scenario (`stiffness = 100`,
`damping = 10`, `dt = 0.1`, `x0 = (1,1,1,1)`, `velocity = (0,0,0,0)`): every lane
of the displacement `SolveSpring` returns is negative, while the closed form
`exp(−ζ·w0·dt)·(A·cos(wD·dt) + B·sin(wD·dt))` of the spec is positive there.
The code multiplies by `−ζ·w0·dt` where the closed form has `exp(−ζ·w0·dt)`,
so the two do not agree. -/
theorem SolveSpring_displacement_not_closed_form :
    ∀ (x : simd_double4 ℝ) (i : Fin 4),
      (SolveSpring realLibm ⟨100, 10⟩ (1 / 10) (splat 1) (splat 0) x).1.lane i < 0
        ∧ 0 < specDisplacement 100 10 (1 / 10) ((splat (1:ℝ)).lane i) ((splat (0:ℝ)).lane i) := by
  intro x i
  obtain ⟨hc, hs⟩ := scenario_trig_pos
  have hw := wD_pos
  constructor
  · rw [scenario_fst, lane_splat, lane_splat]
    have : 0 < 1 * Real.cos (10 * Real.sqrt (3 / 4) * (1 / 10))
        + (0 + 1) * 5 / (10 * Real.sqrt (3 / 4))
            * Real.sin (10 * Real.sqrt (3 / 4) * (1 / 10)) := by
      positivity
    nlinarith
  · rw [lane_splat, lane_splat]
    have e0 : (10:ℝ) / (2 * 10) = 1 / 2 := by norm_num
    have e1 : (1:ℝ) - (1 / 2) ^ 2 = 3 / 4 := by norm_num
    simp only [specDisplacement, sqrt_hundred, e0, e1]
    have : 0 < 1 * Real.cos (10 * Real.sqrt (3 / 4) * (1 / 10))
        + (0 + 1 * (1 / 2) * 10) / (10 * Real.sqrt (3 / 4))
            * Real.sin (10 * Real.sqrt (3 / 4) * (1 / 10)) := by
      positivity
    exact mul_pos (Real.exp_pos _) this

/-- Claim C2, evaluated at `stiffness = 100`, `damping = 10`, `x0 = (1,1,1,1)`,
`velocity = (0,0,0,0)`, `dt = 0`: in every lane the function
`t ↦ displacement returned for the time step t` has derivative `−5` at `t = 0`,
while the velocity `SolveSpring` writes back for `dt = 0` is `0`.  The velocity
written back is therefore not the derivative of the returned displacement. -/
theorem SolveSpring_velocity_not_derivative :
    ∀ (x : simd_double4 ℝ) (i : Fin 4),
      HasDerivAt
          (fun t : ℝ => (SolveSpring realLibm ⟨100, 10⟩ t (splat 1) (splat 0) x).1.lane i)
          (-5) 0
        ∧ (SolveSpring realLibm ⟨100, 10⟩ 0 (splat 1) (splat 0) x).2.lane i = 0 := by
  intro x i
  constructor
  · rw [scenario_fst_fun]
    have h := hasDerivAt_linear_envelope (10 * Real.sqrt (3 / 4)) 0
    convert h using 1
    simp
  · rw [scenario_snd]; simp

/-- Claim C3, evaluated at `stiffness = 100`, `damping = 10` (so `ζ = 0.5`),
`dt = 0`, `x0 = (1,1,1,1)`, `v0 = (1,1,1,1)`: every lane of the returned
displacement is `0` and every lane of the velocity written back is `0`, each at
distance more than `1e-9` (indeed at distance `1`) from `x0` and from `v0`. -/
theorem SolveSpring_time_zero_collapses :
    ∀ (x : simd_double4 ℝ) (i : Fin 4),
      (SolveSpring realLibm ⟨100, 10⟩ 0 (splat 1) (splat 1) x).1.lane i = 0
        ∧ (SolveSpring realLibm ⟨100, 10⟩ 0 (splat 1) (splat 1) x).2.lane i = 0
        ∧ (1 / 10 ^ 9 : ℝ)
            < |(SolveSpring realLibm ⟨100, 10⟩ 0 (splat 1) (splat 1) x).1.lane i
                - (splat (1:ℝ)).lane i|
        ∧ (1 / 10 ^ 9 : ℝ)
            < |(SolveSpring realLibm ⟨100, 10⟩ 0 (splat 1) (splat 1) x).2.lane i
                - (splat (1:ℝ)).lane i| := by
  intro x i
  have h1 : (SolveSpring realLibm ⟨100, 10⟩ 0 (splat 1) (splat 1) x).1.lane i = 0 := by
    rw [scenario_fst]; simp
  have h2 : (SolveSpring realLibm ⟨100, 10⟩ 0 (splat 1) (splat 1) x).2.lane i = 0 := by
    rw [scenario_snd]; simp
  refine ⟨h1, h2, ?_, ?_⟩
  · rw [h1, lane_splat]; norm_num
  · rw [h2, lane_splat]; norm_num

/-- Claim C4, evaluated at `stiffness = 100`, `damping = 10`, `x0 = (1,1,1,1)`,
`velocity = (0,0,0,0)`, `t = 0`: with `x(t)` the lane of the displacement returned
for the time step `t`, `w0 = sqrt(100)` and `ζ = 10/(2·w0)`, the left-hand side
`x''(0) + 2·ζ·w0·x'(0) + w0²·x(0)` of the oscillator equation is `−100`, not `0`. -/
theorem SolveSpring_displacement_ode_residual :
    ∀ (x : simd_double4 ℝ) (i : Fin 4),
      deriv (deriv
          (fun t : ℝ => (SolveSpring realLibm ⟨100, 10⟩ t (splat 1) (splat 0) x).1.lane i)) 0
        + 2 * (10 / (2 * Real.sqrt 100)) * Real.sqrt 100
            * deriv
                (fun t : ℝ => (SolveSpring realLibm ⟨100, 10⟩ t (splat 1) (splat 0) x).1.lane i) 0
        + Real.sqrt 100 ^ 2 * (SolveSpring realLibm ⟨100, 10⟩ 0 (splat 1) (splat 0) x).1.lane i
        = -100 := by
  intro x i
  have hw0 : 10 * Real.sqrt (3 / 4) ≠ 0 := ne_of_gt wD_pos
  have hd : deriv
      (fun t : ℝ => (SolveSpring realLibm ⟨100, 10⟩ t (splat 1) (splat 0) x).1.lane i)
      = fun t => -5 * (Real.cos (10 * Real.sqrt (3 / 4) * t)
            + 5 / (10 * Real.sqrt (3 / 4)) * Real.sin (10 * Real.sqrt (3 / 4) * t))
          + -(5 * t) * (-(10 * Real.sqrt (3 / 4) * Real.sin (10 * Real.sqrt (3 / 4) * t))
            + 5 / (10 * Real.sqrt (3 / 4))
                * (10 * Real.sqrt (3 / 4) * Real.cos (10 * Real.sqrt (3 / 4) * t))) := by
    rw [scenario_fst_fun]
    funext t
    exact (hasDerivAt_linear_envelope (10 * Real.sqrt (3 / 4)) t).deriv
  rw [hd, (hasDerivAt_linear_envelope_deriv (10 * Real.sqrt (3 / 4)) hw0).deriv, scenario_fst,
    sqrt_hundred]
  simp
  norm_num

/-- Claim C5 (lane independence): when `ζ < 1`, lane `i` of the returned
displacement and lane `i` of the velocity written back are what the scalar solver
computes from lane `i` of `x0` and lane `i` of the velocity with the same
parameters and `dt`; hence two calls whose inputs agree in lane `i` agree in lane
`i` of both outputs, whatever the other lanes hold.  This holds for any reading
of `double` and of the math library. -/
theorem SolveSpring_lane_independence {α : Type} [Add α] [Sub α] [Mul α] [Div α] [Neg α]
    [LT α] [DecidableRel (fun a b : α => a < b)] [OfNat α 1] [OfNat α 2]
    (m : Libm α) (spring : SpringC α) (dt : α) (x0 velocity x : simd_double4 α) (i : Fin 4)
    (hz : spring.damping / (2 * m.sqrt spring.stiffness) < 1) :
    ((SolveSpring m spring dt x0 velocity x).1.lane i
          = (SolveSpringScalar m spring dt (x0.lane i) (velocity.lane i) (x.lane i)).1
        ∧ (SolveSpring m spring dt x0 velocity x).2.lane i
          = (SolveSpringScalar m spring dt (x0.lane i) (velocity.lane i) (x.lane i)).2)
      ∧ ∀ (x0' velocity' x' : simd_double4 α),
          x0'.lane i = x0.lane i → velocity'.lane i = velocity.lane i →
          (SolveSpring m spring dt x0' velocity' x').1.lane i
              = (SolveSpring m spring dt x0 velocity x).1.lane i
            ∧ (SolveSpring m spring dt x0' velocity' x').2.lane i
              = (SolveSpring m spring dt x0 velocity x).2.lane i := by
  have h := solve_lane_eq_scalar m spring dt x0 velocity x i
  refine ⟨⟨congrArg Prod.fst h, congrArg Prod.snd h⟩, ?_⟩
  intro x0' velocity' x' hx hv
  have h' := solve_lane_eq_scalar m spring dt x0' velocity' x' i
  rw [hx, hv, scalar_ignores_local m spring dt _ _ (x'.lane i) (x.lane i) hz, ← h] at h'
  exact ⟨congrArg Prod.fst h', congrArg Prod.snd h'⟩

/-- Claim C5 at `stiffness = 100`, `damping = 10`, `dt = 0.1`, distinct values in
the four lanes, lane 2. -/
theorem SolveSpring_lane_independence_witness :
    (10:ℝ) / (2 * Real.sqrt 100) < 1
      ∧ (((SolveSpring realLibm ⟨100, 10⟩ (1 / 10) ⟨1, 2, 3, 4⟩ ⟨0, 5, 6, 7⟩ (splat 0)).1.lane 2
            = (SolveSpringScalar realLibm ⟨100, 10⟩ (1 / 10) 3 6 0).1
          ∧ (SolveSpring realLibm ⟨100, 10⟩ (1 / 10) ⟨1, 2, 3, 4⟩ ⟨0, 5, 6, 7⟩ (splat 0)).2.lane 2
            = (SolveSpringScalar realLibm ⟨100, 10⟩ (1 / 10) 3 6 0).2)
        ∧ ∀ (x0' velocity' x' : simd_double4 ℝ),
            x0'.lane 2 = 3 → velocity'.lane 2 = 6 →
            (SolveSpring realLibm ⟨100, 10⟩ (1 / 10) x0' velocity' x').1.lane 2
                = (SolveSpring realLibm ⟨100, 10⟩ (1 / 10) ⟨1, 2, 3, 4⟩ ⟨0, 5, 6, 7⟩
                    (splat 0)).1.lane 2
              ∧ (SolveSpring realLibm ⟨100, 10⟩ (1 / 10) x0' velocity' x').2.lane 2
                = (SolveSpring realLibm ⟨100, 10⟩ (1 / 10) ⟨1, 2, 3, 4⟩ ⟨0, 5, 6, 7⟩
                    (splat 0)).2.lane 2) :=
  ⟨scenario_zeta_lt_one,
    SolveSpring_lane_independence realLibm ⟨100, 10⟩ (1 / 10) ⟨1, 2, 3, 4⟩ ⟨0, 5, 6, 7⟩
      (splat 0) 2 scenario_zeta_lt_one⟩

/-! ## The claims about `ζ ≥ 1` -/

theorem critical_zeta : (2:ℝ) / (2 * Real.sqrt 1) = 1 := by
  rw [Real.sqrt_one]; norm_num

/-- Claim C6 (regime gap, velocity): for `stiffness > 0` and
`ζ = damping/(2·sqrt(stiffness)) ≥ 1`, whatever `dt` and `x0` are, the velocity
vector after the call is the velocity vector before the call. -/
theorem SolveSpring_regime_gap_velocity (spring : SpringC ℝ) (dt : ℝ)
    (x0 velocity x : simd_double4 ℝ)
    (_hk : 0 < spring.stiffness)
    (hz : 1 ≤ spring.damping / (2 * Real.sqrt spring.stiffness)) :
    (SolveSpring realLibm spring dt x0 velocity x).2 = velocity := by
  rw [solve_skip realLibm spring dt x0 velocity x (not_lt.mpr hz)]

/-- Claim C6 at `stiffness = 1`, `damping = 2` (so `ζ = 1`), `dt = 0.1`,
`x0 = (1,1,1,1)`, `velocity = (3,3,3,3)`. -/
theorem SolveSpring_regime_gap_velocity_witness :
    (0:ℝ) < 1 ∧ (1:ℝ) ≤ 2 / (2 * Real.sqrt 1)
      ∧ (SolveSpring realLibm ⟨1, 2⟩ (1 / 10) (splat 1) (splat 3) (splat 7)).2 = splat 3 :=
  ⟨one_pos, le_of_eq critical_zeta.symm,
    SolveSpring_regime_gap_velocity ⟨1, 2⟩ (1 / 10) (splat 1) (splat 3) (splat 7) one_pos
      (le_of_eq critical_zeta.symm)⟩

/-- Claim C7, evaluated at `stiffness = 1`, `damping = 2` (so `ζ = 1`): whatever
`dt`, `x0` and the velocity are, every lane of the returned vector is the content
of the never-assigned local `x`; when that content is `7` the call returns `7`
in every lane, not `0`. -/
theorem SolveSpring_regime_gap_returns_local :
    ∀ (dt : ℝ) (x0 velocity : simd_double4 ℝ) (i : Fin 4),
      (SolveSpring realLibm ⟨1, 2⟩ dt x0 velocity (splat 7)).1.lane i = 7 := by
  intro dt x0 velocity i
  have h : ¬ (2:ℝ) / (2 * Real.sqrt 1) < 1 := by rw [critical_zeta]; exact lt_irrefl 1
  rw [solve_skip realLibm ⟨1, 2⟩ dt x0 velocity (splat 7) h, lane_splat]

/-! ## The undamped spring and the long-run bound -/

/-- With `damping = 0` the scalar solver yields displacement `0` and velocity `0`:
the factor `−ζ·w0·dt` is `0`. -/
theorem undamped_scalar (k dt x0 v x : ℝ) :
    SolveSpringScalar realLibm ⟨k, 0⟩ dt x0 v x = (0, 0) := by
  have h : (0:ℝ) / (2 * Real.sqrt k) < 1 := by rw [zero_div]; exact one_pos
  simp only [SolveSpringScalar, realLibm, if_pos h]
  simp

/-- Claim C8, evaluated at `stiffness = 1`, `damping = 0`, `dt = 2π/sqrt(1)`,
`x0 = (1,1,1,1)`, `velocity = (1,1,1,1)`: after one full period every lane of
the returned displacement is `0` and every lane of the velocity written back is
`0`, while `x0` and the input velocity are `1` in every lane. -/
theorem SolveSpring_undamped_full_period :
    ∀ (x : simd_double4 ℝ) (i : Fin 4),
      (SolveSpring realLibm ⟨1, 0⟩ (2 * Real.pi / Real.sqrt 1) (splat 1) (splat 1) x).1.lane i = 0
        ∧ (SolveSpring realLibm ⟨1, 0⟩ (2 * Real.pi / Real.sqrt 1) (splat 1) (splat 1) x).2.lane i
            = 0
        ∧ (splat (1:ℝ)).lane i = 1 := by
  intro x i
  have h := solve_lane_eq_scalar realLibm ⟨1, 0⟩ (2 * Real.pi / Real.sqrt 1) (splat 1)
    (splat 1) x i
  rw [undamped_scalar] at h
  exact ⟨congrArg Prod.fst h, congrArg Prod.snd h, lane_splat 1 i⟩

/-- Claim C9, evaluated at `stiffness = 100`, `damping = 10` (so `ζ = 0.5`),
`x0 = (1,1,1,1)`, `velocity = (0,0,0,0)`: in no lane is there a constant `C` with
`|x(dt)| ≤ C·exp(−ζ·w0·dt)` for every `dt ≥ 0`, where `x(dt)` is the displacement
`SolveSpring` returns.  At the time steps `dt = 2πn/wD` the returned displacement
is `−5·dt`, which grows without bound. -/
theorem SolveSpring_displacement_unbounded :
    ∀ (x : simd_double4 ℝ) (i : Fin 4),
      ¬ ∃ C : ℝ, ∀ dt : ℝ, 0 ≤ dt →
        |(SolveSpring realLibm ⟨100, 10⟩ dt (splat 1) (splat 0) x).1.lane i|
          ≤ C * Real.exp (-(10 / (2 * Real.sqrt 100)) * Real.sqrt 100 * dt) := by
  intro x i
  rintro ⟨C, hC⟩
  have hw := wD_pos
  have hwle := wD_le
  have hpi := Real.pi_gt_three
  obtain ⟨n, hn⟩ := exists_nat_gt |C|
  set W := 10 * Real.sqrt (3 / 4) with hW
  have hn0 : (0:ℝ) ≤ n := Nat.cast_nonneg n
  have hdt : 0 ≤ (n:ℝ) * (2 * Real.pi) / W := by positivity
  have hWdt : W * ((n:ℝ) * (2 * Real.pi) / W) = (n:ℝ) * (2 * Real.pi) := by
    field_simp
  have hsin : Real.sin ((n:ℝ) * (2 * Real.pi)) = 0 := by
    have := Real.sin_add_nat_mul_two_pi 0 n
    rwa [zero_add, Real.sin_zero] at this
  have key := hC _ hdt
  rw [scenario_fst, lane_splat, lane_splat, ← hW, hWdt, Real.cos_nat_mul_two_pi, hsin] at key
  have hexp : Real.exp (-(10 / (2 * Real.sqrt 100)) * Real.sqrt 100
      * ((n:ℝ) * (2 * Real.pi) / W)) ≤ 1 := by
    rw [Real.exp_le_one_iff, sqrt_hundred]
    nlinarith
  have hexp0 := Real.exp_pos (-(10 / (2 * Real.sqrt 100)) * Real.sqrt 100
      * ((n:ℝ) * (2 * Real.pi) / W))
  have hrhs : C * Real.exp (-(10 / (2 * Real.sqrt 100)) * Real.sqrt 100
      * ((n:ℝ) * (2 * Real.pi) / W)) ≤ |C| := by
    calc C * Real.exp _ ≤ |C| * Real.exp _ :=
          mul_le_mul_of_nonneg_right (le_abs_self C) hexp0.le
      _ ≤ |C| * 1 := mul_le_mul_of_nonneg_left hexp (abs_nonneg C)
      _ = |C| := mul_one _
  have hlow : (n:ℝ) ≤ 5 * ((n:ℝ) * (2 * Real.pi) / W) := by
    rw [show 5 * ((n:ℝ) * (2 * Real.pi) / W) = (n:ℝ) * (10 * Real.pi) / W by ring,
      le_div_iff₀ hw]
    nlinarith
  have habs : |(-(5 * ((n:ℝ) * (2 * Real.pi) / W)) * (1 * 1 + (0 + 1) * 5 / W * 0))|
      = 5 * ((n:ℝ) * (2 * Real.pi) / W) := by
    rw [show (-(5 * ((n:ℝ) * (2 * Real.pi) / W)) * (1 * 1 + (0 + 1) * 5 / W * 0))
        = -(5 * ((n:ℝ) * (2 * Real.pi) / W)) by ring, abs_neg, abs_of_nonneg (by positivity)]
  rw [habs] at key
  linarith

/-! ## Zero stiffness under IEEE-754 -/

namespace Dbl

theorem zero_def : (0 : Dbl) = fin false 0 := rfl

theorem one_def : (1 : Dbl) = fin false 1 := rfl

theorem two_def : (2 : Dbl) = fin false 2 := rfl

theorem mul_def (a b : Dbl) : a * b = mul a b := rfl

theorem div_def (a b : Dbl) : a / b = div a b := rfl

theorem lt_def (a b : Dbl) : a < b ↔ lt a b = true := Iff.rfl

theorem le_def (a b : Dbl) : a ≤ b ↔ le a b = true := Iff.rfl

theorem le_zero_one : (0 : Dbl) ≤ 1 := by
  simp [le_def, le, toRat, zero_def, one_def]

end Dbl

/-- The natural frequency of a spring of stiffness `+0` is `sqrt(+0) = +0`. -/
theorem ieee_sqrt_zero (sqrtF : NNRat → NNRat) (sinF cosF : ℚ → ℚ) :
    (ieeeLibm sqrtF sinF cosF).sqrt 0 = 0 := by
  simp [ieeeLibm, Dbl.zero_def]

/-- The divisor `2.0 * w0` is `+0` when `w0` is `+0`. -/
theorem ieee_two_mul_zero : (2 : Dbl) * 0 = 0 := by
  simp [Dbl.mul_def, Dbl.mul, Dbl.zero_def, Dbl.two_def]

/-- A damping `≥ 0` divided by `+0` is `+∞`, or NaN when the damping is a zero. -/
theorem ieee_div_zero (damping : Dbl) (h : (0 : Dbl) ≤ damping) :
    damping / 0 = Dbl.inf false ∨ damping / 0 = Dbl.nan := by
  cases damping with
  | nan => right; rfl
  | inf s =>
    cases s with
    | false => left; rfl
    | true => exact absurd h (by decide)
  | fin s a =>
    by_cases ha : a = 0
    · right; simp [Dbl.div_def, Dbl.div, Dbl.zero_def, ha]
    · cases s with
      | false => left; simp [Dbl.div_def, Dbl.div, Dbl.zero_def, ha]
      | true =>
        exfalso
        rw [Dbl.le_def] at h
        simp [Dbl.le, Dbl.zero_def, Dbl.toRat] at h
        exact ha h

/-- Neither `+∞ < 1.0` nor `NaN < 1.0` holds. -/
theorem ieee_not_lt_one (z : Dbl) (h : z = Dbl.inf false ∨ z = Dbl.nan) : ¬ z < 1 := by
  rcases h with h | h <;> subst h <;> decide

/-- With `stiffness = +0` and `damping ≥ 0` the damping ratio is `+∞` or NaN. -/
theorem ieee_zero_stiffness_zeta (sqrtF : NNRat → NNRat) (sinF cosF : ℚ → ℚ) (damping : Dbl)
    (hd : (0 : Dbl) ≤ damping) :
    damping / (2 * (ieeeLibm sqrtF sinF cosF).sqrt 0) = Dbl.inf false
      ∨ damping / (2 * (ieeeLibm sqrtF sinF cosF).sqrt 0) = Dbl.nan := by
  rw [ieee_sqrt_zero, ieee_two_mul_zero]
  exact ieee_div_zero damping hd

/-- Claim C10 as amended: under IEEE-754, for `stiffness = +0` and every
`damping ≥ 0`, `dt`, `x0` and velocity, the division by zero makes the damping
ratio `+∞` or NaN; the test `dampingRatio < 1.0` of line 19 is then false, so the
branch is skipped: the velocity is left as it was and the returned vector is the
local `x` untouched.  No output lane is computed from the division by zero. -/
theorem SolveSpring_zero_stiffness_skips (sqrtF : NNRat → NNRat) (sinF cosF : ℚ → ℚ)
    (damping dt : Dbl) (x0 velocity x : simd_double4 Dbl) (hd : (0 : Dbl) ≤ damping) :
    (damping / (2 * (ieeeLibm sqrtF sinF cosF).sqrt 0) = Dbl.inf false
        ∨ damping / (2 * (ieeeLibm sqrtF sinF cosF).sqrt 0) = Dbl.nan)
      ∧ ¬ damping / (2 * (ieeeLibm sqrtF sinF cosF).sqrt 0) < 1
      ∧ SolveSpring (ieeeLibm sqrtF sinF cosF) ⟨0, damping⟩ dt x0 velocity x = (x, velocity) := by
  have hz := ieee_zero_stiffness_zeta sqrtF sinF cosF damping hd
  exact ⟨hz, ieee_not_lt_one _ hz, solve_skip _ _ _ _ _ _ (ieee_not_lt_one _ hz)⟩

/-- Claim C10 as amended, at `damping = 1`, `dt = 1`, `x0 = (1,1,1,1)`,
`velocity = (2,2,2,2)`, the local `x` holding `(0,0,0,0)`. -/
theorem SolveSpring_zero_stiffness_skips_witness :
    (0 : Dbl) ≤ 1
      ∧ ((1 : Dbl) / (2 * (ieeeLibm id id id).sqrt 0) = Dbl.inf false
          ∨ (1 : Dbl) / (2 * (ieeeLibm id id id).sqrt 0) = Dbl.nan)
      ∧ ¬ (1 : Dbl) / (2 * (ieeeLibm id id id).sqrt 0) < 1
      ∧ SolveSpring (ieeeLibm id id id) ⟨0, 1⟩ 1 (splat 1) (splat 2) (splat 0)
          = (splat 0, splat 2) :=
  ⟨Dbl.le_zero_one,
    SolveSpring_zero_stiffness_skips id id id 1 1 (splat 1) (splat 2) (splat 0) Dbl.le_zero_one⟩

/-- Claim C10 as stated fails at `stiffness = +0`, `damping = 1`, `dt = 1`,
`x0 = (1,1,1,1)`, `velocity = (0,0,0,0)`, the local `x` holding `(0,0,0,0)`: the
call returns `(0,0,0,0)` and leaves the velocity `(0,0,0,0)`; every lane of the
returned displacement is finite. -/
theorem SolveSpring_zero_stiffness_finite :
    SolveSpring (ieeeLibm id id id) ⟨0, 1⟩ 1 (splat 1) (splat 0) (splat 0) = (splat 0, splat 0)
      ∧ ∀ i : Fin 4,
          Dbl.isFinite
            ((SolveSpring (ieeeLibm id id id) ⟨0, 1⟩ 1 (splat 1) (splat 0) (splat 0)).1.lane i)
            = true := by
  have h : SolveSpring (ieeeLibm id id id) ⟨0, 1⟩ 1 (splat 1) (splat 0) (splat 0)
      = (splat 0, splat 0) :=
    solve_skip _ _ _ _ _ _
      (ieee_not_lt_one _ (ieee_zero_stiffness_zeta id id id 1 Dbl.le_zero_one))
  refine ⟨h, fun i => ?_⟩
  rw [h, lane_splat]
  rfl

/-! ## The locals of the solver -/

section Locals

variable {α : Type} [Add α] [Sub α] [Mul α] [Div α] [Neg α] [LT α]
  [DecidableRel (fun a b : α => a < b)] [OfNat α 1] [OfNat α 2]

/-- `SolveSpring` is the test of line 19 on the local `dampingRatio`, followed by
the under-damped body or by nothing. -/
theorem solve_unfold (m : Libm α) (spring : SpringC α) (dt : α)
    (x0 velocity x : simd_double4 α) :
    SolveSpring m spring dt x0 velocity x
      = if SolveSpring.dampingRatio m spring < 1
          then SolveSpring.underDamped m spring dt x0 velocity
          else (x, velocity) := rfl

theorem solve_underDamped (m : Libm α) (spring : SpringC α) (dt : α)
    (x0 velocity x : simd_double4 α) (h : SolveSpring.dampingRatio m spring < 1) :
    SolveSpring m spring dt x0 velocity x = SolveSpring.underDamped m spring dt x0 velocity := by
  rw [solve_unfold, if_pos h]

end Locals

/-- Two vectors with the same four lanes are equal. -/
theorem ext_lane {α : Type} (a b : simd_double4 α) (h : ∀ i : Fin 4, a.lane i = b.lane i) :
    a = b := by
  cases a; cases b
  have h0 := h 0; have h1 := h 1; have h2 := h 2; have h3 := h 3
  simp only [lane] at h0 h1 h2 h3
  subst h0 h1 h2 h3
  rfl

/-- Lane `i` of the displacement the under-damped body assigns (line 29). -/
theorem underDamped_fst_lane {α : Type} [Add α] [Sub α] [Mul α] [Div α] [Neg α]
    [OfNat α 1] [OfNat α 2] (m : Libm α) (spring : SpringC α) (dt : α)
    (x0 velocity : simd_double4 α) (i : Fin 4) :
    (SolveSpring.underDamped m spring dt x0 velocity).1.lane i
      = SolveSpring.decayEnvelope m spring dt
          * (x0.lane i * m.cos (SolveSpring.wD m spring * dt)
              + (SolveSpring.B m spring x0 velocity).lane i
                  * m.sin (SolveSpring.wD m spring * dt)) := by
  fin_cases i <;> rfl

/-- Lane `i` of the velocity the under-damped body stores (lines 31-32). -/
theorem underDamped_snd_lane {α : Type} [Add α] [Sub α] [Mul α] [Div α] [Neg α]
    [OfNat α 1] [OfNat α 2] (m : Libm α) (spring : SpringC α) (dt : α)
    (x0 velocity : simd_double4 α) (i : Fin 4) :
    (SolveSpring.underDamped m spring dt x0 velocity).2.lane i
      = -(SolveSpring.dampingRatio m spring * SolveSpring.w0 m spring
            * (SolveSpring.underDamped m spring dt x0 velocity).1.lane i
          - SolveSpring.decayEnvelope m spring dt
            * ((velocity.lane i + x0.lane i)
                  * (SolveSpring.dampingRatio m spring * SolveSpring.w0 m spring)
                  * m.cos (SolveSpring.wD m spring * dt)
                - x0.lane i
                  * (SolveSpring.wD m spring * m.sin (SolveSpring.wD m spring * dt)))) := by
  fin_cases i <;> rfl

/-- Lane `i` of the local `B` (lines 24 and 27). -/
theorem B_lane {α : Type} [Add α] [Sub α] [Mul α] [Div α] [OfNat α 1] [OfNat α 2]
    (m : Libm α) (spring : SpringC α) (x0 velocity : simd_double4 α) (i : Fin 4) :
    (SolveSpring.B m spring x0 velocity).lane i
      = (velocity.lane i + x0.lane i)
          * (SolveSpring.dampingRatio m spring * SolveSpring.w0 m spring)
          / SolveSpring.wD m spring := by
  fin_cases i <;> rfl

/-- Lane `i` of a linear combination of two vectors. -/
theorem lane_lincomb {α : Type} [Add α] [Mul α] (a b : α) (u v : simd_double4 α) (i : Fin 4) :
    (a * u + b * v).lane i = a * u.lane i + b * v.lane i := by
  fin_cases i <;> rfl

/-! ## The locals over the reals -/

/-- For `stiffness > 0` the natural frequency `w0` is positive. -/
theorem real_w0_pos (spring : SpringC ℝ) (hk : 0 < spring.stiffness) :
    0 < SolveSpring.w0 realLibm spring :=
  Real.sqrt_pos.mpr hk

/-- For `stiffness > 0` and `damping ≥ 0` the damping ratio is not negative. -/
theorem real_zeta_nonneg (spring : SpringC ℝ) (hk : 0 < spring.stiffness)
    (hc : 0 ≤ spring.damping) : 0 ≤ SolveSpring.dampingRatio realLibm spring := by
  have := real_w0_pos spring hk
  unfold SolveSpring.dampingRatio
  positivity

/-- For `stiffness > 0`, `damping ≥ 0` and `ζ < 1` the damped frequency `wD` is positive. -/
theorem real_wD_pos (spring : SpringC ℝ) (hk : 0 < spring.stiffness)
    (hc : 0 ≤ spring.damping) (hz : SolveSpring.dampingRatio realLibm spring < 1) :
    0 < SolveSpring.wD realLibm spring := by
  have h0 := real_w0_pos spring hk
  have h1 := real_zeta_nonneg spring hk hc
  have h2 : 0 < 1 - SolveSpring.dampingRatio realLibm spring
      * SolveSpring.dampingRatio realLibm spring := by nlinarith
  exact mul_pos h0 (Real.sqrt_pos.mpr h2)

/-- The locals of the scenario `stiffness = 100`, `damping = 10`. -/
theorem scenario_w0 : SolveSpring.w0 realLibm ⟨100, 10⟩ = 10 := sqrt_hundred

theorem scenario_dampingRatio : SolveSpring.dampingRatio realLibm ⟨100, 10⟩ = 1 / 2 := by
  unfold SolveSpring.dampingRatio
  rw [scenario_w0]; norm_num

theorem scenario_wD : SolveSpring.wD realLibm ⟨100, 10⟩ = 10 * Real.sqrt (3 / 4) := by
  unfold SolveSpring.wD
  rw [scenario_w0, scenario_dampingRatio]
  norm_num [realLibm]

theorem scenario_decayEnvelope (dt : ℝ) :
    SolveSpring.decayEnvelope realLibm ⟨100, 10⟩ dt = -(5 * dt) := by
  unfold SolveSpring.decayEnvelope
  rw [scenario_w0, scenario_dampingRatio]
  ring

/-- The number `sqrt(3/4)` lies strictly between `0.8659` and `0.8661`. -/
theorem sqrt_three_quarters_bounds :
    (0.8659 : ℝ) < Real.sqrt (3 / 4) ∧ Real.sqrt (3 / 4) < 0.8661 := by
  constructor
  · rw [Real.lt_sqrt (by norm_num)]; norm_num
  · rw [Real.sqrt_lt' (by norm_num)]; norm_num

/-- Derivative of the un-enveloped term `t ↦ A·cos(W·t) + B·sin(W·t)`. -/
theorem hasDerivAt_inner (A B W t : ℝ) :
    HasDerivAt (fun t : ℝ => A * Real.cos (W * t) + B * Real.sin (W * t))
      (A * -(W * Real.sin (W * t)) + B * (W * Real.cos (W * t))) t := by
  have hl : HasDerivAt (fun t : ℝ => W * t) W t := by
    simpa using (hasDerivAt_id t).const_mul W
  have hc : HasDerivAt (fun t : ℝ => Real.cos (W * t)) (-(W * Real.sin (W * t))) t := by
    have := hl.cos
    convert this using 1; ring
  have hs : HasDerivAt (fun t : ℝ => Real.sin (W * t)) (W * Real.cos (W * t)) t := by
    have := hl.sin
    convert this using 1; ring
  exact (hc.const_mul A).add (hs.const_mul B)

/-! ## The coefficients and the velocity update -/

/-- Claim C11, evaluated at `stiffness = 100`, `damping = 10`, `dt = 0.1`,
`x0 = (1,1,1,1)`, `velocity = (1,1,1,1)`: in every lane the coefficient `B` the
routine uses is `10/wD`, while `(v + x0·ζ·w0)/wD` is `6/wD`; and the returned
displacement is strictly below the routine's envelope factor times
`x0·cos(wD·dt) + ((v + x0·ζ·w0)/wD)·sin(wD·dt)`.  Line 24 multiplies the sum
`velocity + x0` by `ζ·w0`, where the claim has `velocity + x0·ζ·w0`. -/
theorem SolveSpring_sine_coefficient_mismatch :
    ∀ (x : simd_double4 ℝ) (i : Fin 4),
      (SolveSpring.B realLibm ⟨100, 10⟩ (splat 1) (splat 1)).lane i
          = 10 / (10 * Real.sqrt (3 / 4))
        ∧ ((splat (1:ℝ)).lane i
              + (splat (1:ℝ)).lane i * SolveSpring.dampingRatio realLibm ⟨100, 10⟩
                  * SolveSpring.w0 realLibm ⟨100, 10⟩)
            / SolveSpring.wD realLibm ⟨100, 10⟩
          = 6 / (10 * Real.sqrt (3 / 4))
        ∧ (SolveSpring realLibm ⟨100, 10⟩ (1 / 10) (splat 1) (splat 1) x).1.lane i
          < SolveSpring.decayEnvelope realLibm ⟨100, 10⟩ (1 / 10)
              * ((splat (1:ℝ)).lane i * Real.cos (SolveSpring.wD realLibm ⟨100, 10⟩ * (1 / 10))
                  + ((splat (1:ℝ)).lane i
                        + (splat (1:ℝ)).lane i * SolveSpring.dampingRatio realLibm ⟨100, 10⟩
                            * SolveSpring.w0 realLibm ⟨100, 10⟩)
                      / SolveSpring.wD realLibm ⟨100, 10⟩
                      * Real.sin (SolveSpring.wD realLibm ⟨100, 10⟩ * (1 / 10))) := by
  intro x i
  obtain ⟨_, hs⟩ := scenario_trig_pos
  have hw := wD_pos
  refine ⟨?_, ?_, ?_⟩
  · rw [B_lane, lane_splat, scenario_w0, scenario_dampingRatio, scenario_wD]
    norm_num
  · rw [lane_splat, scenario_w0, scenario_dampingRatio, scenario_wD]
    norm_num
  · rw [scenario_fst, lane_splat, scenario_w0, scenario_dampingRatio, scenario_wD,
      scenario_decayEnvelope]
    have h4 : 0 < 4 / (10 * Real.sqrt (3 / 4)) * Real.sin (10 * Real.sqrt (3 / 4) * (1 / 10)) := by
      positivity
    have e : (1 + 1 : ℝ) * 5 / (10 * Real.sqrt (3 / 4))
        = (1 + 1 * (1 / 2) * 10) / (10 * Real.sqrt (3 / 4)) + 4 / (10 * Real.sqrt (3 / 4)) := by
      field_simp; ring
    rw [e]
    nlinarith

/-- Claim C12 (velocity update formula): for `stiffness > 0`, `damping ≥ 0` and
`ζ < 1`, with `E` the local `decayEnvelope`, `A = x0` and `B` the local `B`, each
lane of the returned displacement is `x = E·(A·cos(wD·dt) + B·sin(wD·dt))`, and
the velocity written back is `−(ζ·w0·x − E·x'_inner)`, where `x'_inner` is the
derivative at `t = dt` of `t ↦ A·cos(wD·t) + B·sin(wD·t)`. -/
theorem SolveSpring_velocity_update_formula (spring : SpringC ℝ) (dt : ℝ) (x0 velocity x : simd_double4 ℝ) (i : Fin 4)
    (hk : 0 < spring.stiffness) (hc : 0 ≤ spring.damping)
    (hz : SolveSpring.dampingRatio realLibm spring < 1) :
    (SolveSpring realLibm spring dt x0 velocity x).1.lane i
        = SolveSpring.decayEnvelope realLibm spring dt
            * (x0.lane i * Real.cos (SolveSpring.wD realLibm spring * dt)
                + (SolveSpring.B realLibm spring x0 velocity).lane i
                    * Real.sin (SolveSpring.wD realLibm spring * dt))
      ∧ (SolveSpring realLibm spring dt x0 velocity x).2.lane i
        = -(SolveSpring.dampingRatio realLibm spring * SolveSpring.w0 realLibm spring
              * (SolveSpring realLibm spring dt x0 velocity x).1.lane i
            - SolveSpring.decayEnvelope realLibm spring dt
              * deriv (fun t : ℝ =>
                  x0.lane i * Real.cos (SolveSpring.wD realLibm spring * t)
                    + (SolveSpring.B realLibm spring x0 velocity).lane i
                        * Real.sin (SolveSpring.wD realLibm spring * t)) dt) := by
  have hw : SolveSpring.wD realLibm spring ≠ 0 := ne_of_gt (real_wD_pos spring hk hc hz)
  rw [solve_underDamped realLibm spring dt x0 velocity x hz]
  refine ⟨underDamped_fst_lane realLibm spring dt x0 velocity i, ?_⟩
  rw [underDamped_snd_lane, (hasDerivAt_inner _ _ _ dt).deriv, B_lane]
  have e : (velocity.lane i + x0.lane i)
        * (SolveSpring.dampingRatio realLibm spring * SolveSpring.w0 realLibm spring)
        / SolveSpring.wD realLibm spring
        * (SolveSpring.wD realLibm spring * Real.cos (SolveSpring.wD realLibm spring * dt))
      = (velocity.lane i + x0.lane i)
        * (SolveSpring.dampingRatio realLibm spring * SolveSpring.w0 realLibm spring)
        * Real.cos (SolveSpring.wD realLibm spring * dt) := by
    field_simp
    ring
  rw [e]
  simp only [realLibm]
  ring

/-- Claim C13 (derived quantities of the scenario): for `stiffness = 100` and
`damping = 10` the locals are `w0 = 10`, `ζ = 0.5` and `wD = 10·sqrt(0.75)`, with
`|wD − 8.660| < 0.001`; the test `ζ < 1` of line 19 holds, and every call runs the
under-damped body. -/
theorem SolveSpring_scenario_locals :
    SolveSpring.w0 realLibm ⟨100, 10⟩ = 10
      ∧ SolveSpring.dampingRatio realLibm ⟨100, 10⟩ = 0.5
      ∧ SolveSpring.wD realLibm ⟨100, 10⟩ = 10 * Real.sqrt 0.75
      ∧ |SolveSpring.wD realLibm ⟨100, 10⟩ - 8.660| < 0.001
      ∧ SolveSpring.dampingRatio realLibm ⟨100, 10⟩ < 1
      ∧ ∀ (dt : ℝ) (x0 velocity x : simd_double4 ℝ),
          SolveSpring realLibm ⟨100, 10⟩ dt x0 velocity x
            = SolveSpring.underDamped realLibm ⟨100, 10⟩ dt x0 velocity := by
  obtain ⟨hlo, hhi⟩ := sqrt_three_quarters_bounds
  have hz : SolveSpring.dampingRatio realLibm ⟨100, 10⟩ < 1 := by
    rw [scenario_dampingRatio]; norm_num
  refine ⟨scenario_w0, ?_, ?_, ?_, hz, ?_⟩
  · rw [scenario_dampingRatio]; norm_num
  · rw [scenario_wD]; norm_num
  · rw [scenario_wD, abs_lt]
    constructor <;> linarith
  · intro dt x0 velocity x
    exact solve_underDamped realLibm ⟨100, 10⟩ dt x0 velocity x hz

theorem scenario_dampingRatio_lt_one : SolveSpring.dampingRatio realLibm ⟨100, 10⟩ < 1 := by
  rw [scenario_dampingRatio]; norm_num

/-- With `dt = 0` or `damping = 0` the local `decayEnvelope` is `0`. -/
theorem real_decayEnvelope_zero (spring : SpringC ℝ) (dt : ℝ)
    (h : dt = 0 ∨ spring.damping = 0) : SolveSpring.decayEnvelope realLibm spring dt = 0 := by
  unfold SolveSpring.decayEnvelope SolveSpring.dampingRatio
  rcases h with h | h <;> rw [h] <;> simp

/-- Claim C12 at `stiffness = 100`, `damping = 10`, `dt = 0.1`, lane 2 of
`x0 = (1,2,3,4)` and `velocity = (0,5,6,7)`. -/
theorem SolveSpring_velocity_update_formula_witness :
    (0:ℝ) < 100 ∧ (0:ℝ) ≤ 10 ∧ SolveSpring.dampingRatio realLibm ⟨100, 10⟩ < 1
      ∧ ((SolveSpring realLibm ⟨100, 10⟩ (1 / 10) ⟨1, 2, 3, 4⟩ ⟨0, 5, 6, 7⟩ (splat 0)).1.lane 2
          = SolveSpring.decayEnvelope realLibm ⟨100, 10⟩ (1 / 10)
              * (3 * Real.cos (SolveSpring.wD realLibm ⟨100, 10⟩ * (1 / 10))
                  + (SolveSpring.B realLibm ⟨100, 10⟩ ⟨1, 2, 3, 4⟩ ⟨0, 5, 6, 7⟩).lane 2
                      * Real.sin (SolveSpring.wD realLibm ⟨100, 10⟩ * (1 / 10)))
        ∧ (SolveSpring realLibm ⟨100, 10⟩ (1 / 10) ⟨1, 2, 3, 4⟩ ⟨0, 5, 6, 7⟩ (splat 0)).2.lane 2
          = -(SolveSpring.dampingRatio realLibm ⟨100, 10⟩ * SolveSpring.w0 realLibm ⟨100, 10⟩
                * (SolveSpring realLibm ⟨100, 10⟩ (1 / 10) ⟨1, 2, 3, 4⟩ ⟨0, 5, 6, 7⟩
                    (splat 0)).1.lane 2
              - SolveSpring.decayEnvelope realLibm ⟨100, 10⟩ (1 / 10)
                * deriv (fun t : ℝ =>
                    3 * Real.cos (SolveSpring.wD realLibm ⟨100, 10⟩ * t)
                      + (SolveSpring.B realLibm ⟨100, 10⟩ ⟨1, 2, 3, 4⟩ ⟨0, 5, 6, 7⟩).lane 2
                          * Real.sin (SolveSpring.wD realLibm ⟨100, 10⟩ * t)) (1 / 10))) :=
  ⟨by norm_num, by norm_num, scenario_dampingRatio_lt_one,
    SolveSpring_velocity_update_formula ⟨100, 10⟩ (1 / 10) ⟨1, 2, 3, 4⟩ ⟨0, 5, 6, 7⟩ (splat 0) 2 (by norm_num)
      (by norm_num) scenario_dampingRatio_lt_one⟩

/-! ## Collapse to zero, superposition, divisors -/

/-- Claim C15 (superposition): for `stiffness > 0`, `damping ≥ 0`, `ζ < 1` and a
fixed `dt`, the displacement and the velocity computed from the state
`(a·x0 + b·x0', a·v + b·v')` are, lane by lane, `a` times those computed from
`(x0, v)` plus `b` times those computed from `(x0', v')`. -/
theorem SolveSpring_superposition (spring : SpringC ℝ) (dt a b : ℝ)
    (x0 velocity x0' velocity' x x' x'' : simd_double4 ℝ) (i : Fin 4)
    (_hk : 0 < spring.stiffness) (_hc : 0 ≤ spring.damping)
    (hz : SolveSpring.dampingRatio realLibm spring < 1) :
    (SolveSpring realLibm spring dt (a * x0 + b * x0') (a * velocity + b * velocity') x'').1.lane i
        = a * (SolveSpring realLibm spring dt x0 velocity x).1.lane i
          + b * (SolveSpring realLibm spring dt x0' velocity' x').1.lane i
      ∧ (SolveSpring realLibm spring dt (a * x0 + b * x0') (a * velocity + b * velocity')
            x'').2.lane i
        = a * (SolveSpring realLibm spring dt x0 velocity x).2.lane i
          + b * (SolveSpring realLibm spring dt x0' velocity' x').2.lane i := by
  rw [solve_underDamped realLibm spring dt _ _ x'' hz,
    solve_underDamped realLibm spring dt x0 velocity x hz,
    solve_underDamped realLibm spring dt x0' velocity' x' hz]
  have h1 : (SolveSpring.underDamped realLibm spring dt (a * x0 + b * x0')
        (a * velocity + b * velocity')).1.lane i
      = a * (SolveSpring.underDamped realLibm spring dt x0 velocity).1.lane i
        + b * (SolveSpring.underDamped realLibm spring dt x0' velocity').1.lane i := by
    simp only [underDamped_fst_lane, B_lane, lane_lincomb]
    ring
  refine ⟨h1, ?_⟩
  rw [underDamped_snd_lane, underDamped_snd_lane, underDamped_snd_lane, h1]
  simp only [lane_lincomb]
  ring

/-- Claim C15 at `stiffness = 100`, `damping = 10`, `dt = 0.1`, `a = 2`, `b = 3`,
lane 1 of the states `((1,2,3,4), (0,5,6,7))` and `((0,1,0,1), (1,1,2,2))`. -/
theorem SolveSpring_superposition_witness :
    (0:ℝ) < 100 ∧ (0:ℝ) ≤ 10 ∧ SolveSpring.dampingRatio realLibm ⟨100, 10⟩ < 1
      ∧ ((SolveSpring realLibm ⟨100, 10⟩ (1 / 10)
              ((2:ℝ) * (⟨1, 2, 3, 4⟩ : simd_double4 ℝ) + (3:ℝ) * (⟨0, 1, 0, 1⟩ : simd_double4 ℝ))
              ((2:ℝ) * (⟨0, 5, 6, 7⟩ : simd_double4 ℝ) + (3:ℝ) * (⟨1, 1, 2, 2⟩ : simd_double4 ℝ))
              (splat 0)).1.lane 1
          = 2 * (SolveSpring realLibm ⟨100, 10⟩ (1 / 10) ⟨1, 2, 3, 4⟩ ⟨0, 5, 6, 7⟩ (splat 0)).1.lane 1
            + 3 * (SolveSpring realLibm ⟨100, 10⟩ (1 / 10) ⟨0, 1, 0, 1⟩ ⟨1, 1, 2, 2⟩
                (splat 0)).1.lane 1
        ∧ (SolveSpring realLibm ⟨100, 10⟩ (1 / 10)
              ((2:ℝ) * (⟨1, 2, 3, 4⟩ : simd_double4 ℝ) + (3:ℝ) * (⟨0, 1, 0, 1⟩ : simd_double4 ℝ))
              ((2:ℝ) * (⟨0, 5, 6, 7⟩ : simd_double4 ℝ) + (3:ℝ) * (⟨1, 1, 2, 2⟩ : simd_double4 ℝ))
              (splat 0)).2.lane 1
          = 2 * (SolveSpring realLibm ⟨100, 10⟩ (1 / 10) ⟨1, 2, 3, 4⟩ ⟨0, 5, 6, 7⟩ (splat 0)).2.lane 1
            + 3 * (SolveSpring realLibm ⟨100, 10⟩ (1 / 10) ⟨0, 1, 0, 1⟩ ⟨1, 1, 2, 2⟩
                (splat 0)).2.lane 1) :=
  ⟨by norm_num, by norm_num, scenario_dampingRatio_lt_one,
    SolveSpring_superposition ⟨100, 10⟩ (1 / 10) 2 3 ⟨1, 2, 3, 4⟩ ⟨0, 5, 6, 7⟩ ⟨0, 1, 0, 1⟩ ⟨1, 1, 2, 2⟩
      (splat 0) (splat 0) (splat 0) 1 (by norm_num) (by norm_num) scenario_dampingRatio_lt_one⟩

/-- Claim C16 (no division by zero on valid input): for `stiffness > 0` and
`damping ≥ 0` the divisor `2·w0` of line 15 is strictly positive, and when the
branch of line 19 is entered (`ζ < 1`) the divisor `wD` of line 27 is strictly
positive, hence not zero. -/
theorem SolveSpring_divisors_positive (spring : SpringC ℝ) (hk : 0 < spring.stiffness)
    (hc : 0 ≤ spring.damping) :
    0 < 2 * SolveSpring.w0 realLibm spring
      ∧ (SolveSpring.dampingRatio realLibm spring < 1 →
          0 < SolveSpring.wD realLibm spring ∧ SolveSpring.wD realLibm spring ≠ 0) := by
  have h0 := real_w0_pos spring hk
  refine ⟨by positivity, fun hz => ?_⟩
  have hw := real_wD_pos spring hk hc hz
  exact ⟨hw, ne_of_gt hw⟩

/-- Claim C16 at `stiffness = 100`, `damping = 10`, where `ζ = 0.5 < 1`. -/
theorem SolveSpring_divisors_positive_witness :
    (0:ℝ) < 100 ∧ (0:ℝ) ≤ 10 ∧ SolveSpring.dampingRatio realLibm ⟨100, 10⟩ < 1
      ∧ 0 < 2 * SolveSpring.w0 realLibm ⟨100, 10⟩
      ∧ 0 < SolveSpring.wD realLibm ⟨100, 10⟩ ∧ SolveSpring.wD realLibm ⟨100, 10⟩ ≠ 0 :=
  ⟨by norm_num, by norm_num, scenario_dampingRatio_lt_one,
    (SolveSpring_divisors_positive ⟨100, 10⟩ (by norm_num) (by norm_num)).1,
    (SolveSpring_divisors_positive ⟨100, 10⟩ (by norm_num) (by norm_num)).2
      scenario_dampingRatio_lt_one⟩

/-! ## Negative damping under IEEE-754 -/

namespace Dbl

theorem add_def (a b : Dbl) : a + b = add a b := rfl

theorem sub_def (a b : Dbl) : a - b = add a (neg b) := rfl

theorem neg_def (a : Dbl) : -a = neg a := rfl

/-- NaN propagates through the arithmetic. -/
theorem mul_nan (a : Dbl) : a * nan = nan := by cases a <;> rfl

theorem nan_mul (a : Dbl) : nan * a = nan := by cases a <;> rfl

theorem add_nan (a : Dbl) : a + nan = nan := by cases a <;> rfl

theorem nan_add (a : Dbl) : nan + a = nan := by cases a <;> rfl

theorem nan_sub (a : Dbl) : nan - a = nan := by cases a <;> rfl

theorem div_nan (a : Dbl) : a / nan = nan := by cases a <;> rfl

theorem neg_nan : -nan = nan := rfl

end Dbl

/-- Under IEEE-754, `stiffness = 1`, `damping = −4`: the local `w0` is `1`. -/
theorem ieee_neg_damping_w0 : SolveSpring.w0 (ieeeLibm id id id) ⟨1, Dbl.fin true 4⟩ = 1 := by
  simp [SolveSpring.w0, ieeeLibm, Dbl.one_def]

/-- The local `dampingRatio` is `−4 / (2·1) = −2`. -/
theorem ieee_neg_damping_zeta :
    SolveSpring.dampingRatio (ieeeLibm id id id) ⟨1, Dbl.fin true 4⟩ = Dbl.fin true 2 := by
  rw [SolveSpring.dampingRatio, ieee_neg_damping_w0]
  simp [Dbl.div_def, Dbl.div, Dbl.mul_def, Dbl.mul, Dbl.one_def, Dbl.two_def]
  rw [div_eq_iff (by norm_num)]
  norm_num

/-- The local `wD` is `1 · sqrt(1 − 4) = 1 · sqrt(−3)`, which is NaN. -/
theorem ieee_neg_damping_wD :
    SolveSpring.wD (ieeeLibm id id id) ⟨1, Dbl.fin true 4⟩ = Dbl.nan := by
  rw [SolveSpring.wD, ieee_neg_damping_zeta, ieee_neg_damping_w0]
  have h : (1 : Dbl) - Dbl.fin true 2 * Dbl.fin true 2 = Dbl.fin true 3 := by
    simp [Dbl.sub_def, Dbl.mul_def, Dbl.mul, Dbl.neg, Dbl.add, Dbl.toRat, Dbl.ofRat, Dbl.one_def]
    norm_num
    apply NNRat.coe_injective
    rw [Rat.coe_nnabs]
    norm_num
  rw [h]
  simp [ieeeLibm, Dbl.mul_def, Dbl.mul, Dbl.one_def]

theorem ieee_neg_damping_zeta_lt_one :
    SolveSpring.dampingRatio (ieeeLibm id id id) ⟨1, Dbl.fin true 4⟩ < 1 := by
  rw [ieee_neg_damping_zeta, Dbl.lt_def]
  simp [Dbl.lt, Dbl.toRat, Dbl.one_def]
  norm_num

theorem ieee_zero_lt_one : (0 : Dbl) < 1 := by
  simp [Dbl.lt_def, Dbl.lt, Dbl.toRat, Dbl.zero_def, Dbl.one_def]

/-- With `wD` NaN every lane the under-damped body computes is NaN, whatever
`dt`, `x0` and the velocity are. -/
theorem ieee_neg_damping_nan (x0 velocity : simd_double4 Dbl) (dt : Dbl) :
    SolveSpring.underDamped (ieeeLibm id id id) ⟨1, Dbl.fin true 4⟩ dt x0 velocity
      = (splat Dbl.nan, splat Dbl.nan) := by
  have hcos : (ieeeLibm id id id).cos Dbl.nan = Dbl.nan := rfl
  have hsin : (ieeeLibm id id id).sin Dbl.nan = Dbl.nan := rfl
  have h1 : ∀ i : Fin 4,
      (SolveSpring.underDamped (ieeeLibm id id id) ⟨1, Dbl.fin true 4⟩ dt x0 velocity).1.lane i
        = Dbl.nan := by
    intro i
    rw [underDamped_fst_lane, ieee_neg_damping_wD, Dbl.nan_mul, hcos, hsin, Dbl.mul_nan,
      Dbl.mul_nan, Dbl.add_nan, Dbl.mul_nan]
  have h2 : ∀ i : Fin 4,
      (SolveSpring.underDamped (ieeeLibm id id id) ⟨1, Dbl.fin true 4⟩ dt x0 velocity).2.lane i
        = Dbl.nan := by
    intro i
    rw [underDamped_snd_lane, h1 i, Dbl.mul_nan, Dbl.nan_sub, Dbl.neg_nan]
  refine Prod.ext (ext_lane _ _ fun i => ?_) (ext_lane _ _ fun i => ?_)
  · rw [h1 i, lane_splat]
  · rw [h2 i, lane_splat]

end Motion
